import Mathlib

/-!
Verification of the `dead-or-alive` URL checker.

The development shallowly embeds the four components of the library:
the declarative-refresh parser (`lib/shared-declarative-refresh.js`),
the anchor index builder (`lib/anchors.js`), the suggestion engine
(`lib/propose.js`) and the resolution engine (`lib/index.js`).
Network fetches are modelled by a script of outcomes consumed one per
request; the recursive resolution loop is driven by explicit fuel.
External collaborators (WHATWG URL parsing, the content-type parser,
the HTML tree) are modelled by small executable stand-ins covering the
behaviour the library relies on.
-/

/-- A parsed URL, as the standard URL type used by the library:
origin (scheme and host), pathname, search (with leading `?` or empty)
and hash (with leading `#` or empty). `href` is their concatenation. -/
structure Url where
  origin : String
  pathname : String
  search : String
  hash : String
deriving DecidableEq, Repr

/-- Serialisation of a URL, matching the `href` accessor. -/
def Url.href (u : Url) : String :=
  u.origin ++ u.pathname ++ u.search ++ u.hash

/-- Characters of a list up to (excluding) the first stop character. -/
def takeUntilChars (stops : List Char) (l : List Char) : List Char :=
  l.takeWhile (fun c => ¬ stops.contains c)

/-- Characters of a list from the first stop character on. -/
def dropUntilChars (stops : List Char) (l : List Char) : List Char :=
  l.dropWhile (fun c => ¬ stops.contains c)

/-- Split the tail of a URL into pathname, search and hash components. -/
def splitPathSearchHash (l : List Char) : String × String × String :=
  let path := takeUntilChars [Char.ofNat 63, Char.ofNat 35] l
  let rest := dropUntilChars [Char.ofNat 63, Char.ofNat 35] l
  let search := rest.takeWhile (fun c => c ≠ Char.ofNat 35)
  let hash := rest.dropWhile (fun c => c ≠ Char.ofNat 35)
  (String.mk path, String.mk search, String.mk hash)

/-- The directory part of a pathname: everything up to and including the
last slash. -/
def dirOf (path : String) : String :=
  String.mk ((path.toList.reverse.dropWhile (fun c => c ≠ Char.ofNat 47)).reverse)

/-- String prefix test (`String.prototype.startsWith`), stated over the
character lists so that it evaluates and rewrites structurally. -/
def strStartsWith (s marker : String) : Bool :=
  marker.toList.isPrefixOf s.toList

/-- Modelled from the spec: the external WHATWG-style URL resolver
(section 6 treats generic URL parsing as an external collaborator).
It covers the reference forms the library exercises: absolute
`http(s)` URLs (rejected when the host is empty, as WHATWG does for
special schemes), path-absolute references, query-only and
fragment-only references, and path-relative references resolved
against the base directory. Other inputs that a full WHATWG parser
may accept are out of scope of the claims. -/
def resolveUrl (input : String) (base : Url) : Option Url :=
  if strStartsWith input "https://" ∨ strStartsWith input "http://" then
    let scheme := if strStartsWith input "https://" then "https://" else "http://"
    let rest := input.toList.drop scheme.length
    let host := takeUntilChars [Char.ofNat 47, Char.ofNat 63, Char.ofNat 35] rest
    if host.isEmpty then none
    else
      let tail := rest.drop host.length
      let (p, s, h) := splitPathSearchHash tail
      some { origin := scheme ++ String.mk host,
             pathname := if p = "" then "/" else p, search := s, hash := h }
  else
    match input.toList with
    | [] => some { base with hash := "" }
    | c :: _ =>
      if c = Char.ofNat 47 then
        let (p, s, h) := splitPathSearchHash input.toList
        some { origin := base.origin, pathname := p, search := s, hash := h }
      else if c = Char.ofNat 35 then
        some { base with hash := input }
      else if c = Char.ofNat 63 then
        let (_, s, h) := splitPathSearchHash input.toList
        some { origin := base.origin, pathname := base.pathname, search := s, hash := h }
      else
        let (p, s, h) := splitPathSearchHash input.toList
        some { origin := base.origin, pathname := dirOf base.pathname ++ p,
               search := s, hash := h }

/-- Modelled from the spec: parsing an input string as an absolute URL
(`new URL(href)` with no base); fails on anything that is not an
absolute `http(s)` URL with a nonempty host. -/
def parseAbsoluteUrl (input : String) : Option Url :=
  if strStartsWith input "https://" ∨ strStartsWith input "http://" then
    resolveUrl input { origin := "", pathname := "", search := "", hash := "" }
  else none

/-- A diagnostic, modelling `VFileMessage` with the fields the library
sets: the reason text, the rule identifier and source, the fatal flag
(unset for warnings and for plain platform errors), and the
documentation link stored on `message.url`. -/
structure Msg where
  reason : String
  ruleId : Option String
  source : Option String
  fatal : Option Bool
  url : Option String
deriving DecidableEq, Repr

/-- Documentation base URL interpolated into diagnostics. -/
def documentation : String := "https://github.com/wooorm/dead-or-alive"

/-- The platform error thrown by `new URL` on unparsable input: not one
of the library's diagnostic kinds, carries no rule identifier. -/
def invalidUrlError (input : String) : Msg :=
  { reason := "Invalid URL: " ++ input, ruleId := none, source := none,
    fatal := none, url := none }

/-- ASCII digit predicate from `shared-declarative-refresh.js`. -/
def asciiDigitB (c : Char) : Bool := 48 ≤ c.toNat && c.toNat ≤ 57

/-- Dot predicate from `shared-declarative-refresh.js`. -/
def dotB (c : Char) : Bool := c.toNat = 46

/-- ASCII digit or dot predicate from `shared-declarative-refresh.js`. -/
def asciiDigitOrDotB (c : Char) : Bool := asciiDigitB c || dotB c

/-- ASCII whitespace predicate from `shared-declarative-refresh.js`:
tab, line feed, form feed, carriage return, space. -/
def asciiWhitespaceB (c : Char) : Bool :=
  c.toNat = 9 || c.toNat = 10 || c.toNat = 12 || c.toNat = 13 || c.toNat = 32

/-- Comma or semicolon predicate from `shared-declarative-refresh.js`. -/
def commaOrSemicolonB (c : Char) : Bool := c.toNat = 44 || c.toNat = 59

/-- Test a predicate on an optional character; `none` (past end of
input, where `charCodeAt` yields NaN) fails every comparison. -/
def optTest (f : Char → Bool) (o : Option Char) : Bool :=
  match o with
  | some c => f c
  | none => false

/-- Number of leading characters satisfying a predicate: the while
loops of `shared-declarative-refresh.js` advance by this count. -/
def countWhile (f : Char → Bool) : List Char → Nat
  | [] => 0
  | c :: cs => if f c then countWhile f cs + 1 else 0

/-- The `skipAsciiWhitespace` helper: advance the position over ASCII
whitespace. -/
def sdrSkipWs (input : List Char) (position : Nat) : Nat :=
  position + countWhile asciiWhitespaceB (input.drop position)

/-- The `skipQuotes` step (11.8 to 11.10): if the character at the
position is a double or single quote, remember it and skip it; the URL
text is the remainder, truncated at the next occurrence of the
remembered quote when there is one. -/
def sdrSkipQuotes (input : List Char) (position : Nat) : List Char :=
  match input[position]? with
  | some c =>
    if c = Char.ofNat 34 ∨ c = Char.ofNat 39 then
      (input.drop (position + 1)).takeWhile (fun d => d ≠ c)
    else input.drop position
  | none => input.drop position

/-- URL-text extraction of `sharedDeclarativeRefresh`: the exact
control flow of `shared-declarative-refresh.js` up to the final
`parse()` call, returning the `urlString` that reaches `parse` (`none`
when the function returns `undefined` instead). The keyword steps 11.2
to 11.7 jump to `skipQuotes` only when the first letter is not `U`;
the later fallbacks return the text captured at step 11.1 directly. -/
def sdrExtract (input : List Char) : Option (List Char) :=
  let position := sdrSkipWs input 0
  let before := position
  let position := position + countWhile asciiDigitB (input.drop position)
  if position = before ∧ ¬ optTest dotB input[position]? then none
  else
    let position := position + countWhile asciiDigitOrDotB (input.drop position)
    let before := position
    let position :=
      if position < input.length then
        let p := sdrSkipWs input position
        let p := if optTest commaOrSemicolonB input[p]? then p + 1 else p
        sdrSkipWs input p
      else position
    if before = position ∨ position = input.length then none
    else
      let urlString := input.drop position
      if ¬ optTest (fun c => c = 'U' ∨ c = 'u') input[position]? then
        some (sdrSkipQuotes input position)
      else
        let position := position + 1
        if ¬ optTest (fun c => c = 'R' ∨ c = 'r') input[position]? then some urlString
        else
          let position := position + 1
          if ¬ optTest (fun c => c = 'L' ∨ c = 'l') input[position]? then some urlString
          else
            let position := position + 1
            let position := sdrSkipWs input position
            if ¬ (input[position]? = some '=') then some urlString
            else
              let position := position + 1
              let position := sdrSkipWs input position
              some (sdrSkipQuotes input position)

/-- URL-text extraction as the claim about the keyword fallback reads
it: every partial-keyword failure (missing `U`, `U` without `R`, `UR`
without `L`, or full keyword without `=`) falls back to the
quote-stripping step at the current position, so a leading quote of
the remaining text is recognised and the text truncated at its match.
Identical to `sdrExtract` before step 11.2. -/
def sdrExtractSpecC2 (input : List Char) : Option (List Char) :=
  let position := sdrSkipWs input 0
  let before := position
  let position := position + countWhile asciiDigitB (input.drop position)
  if position = before ∧ ¬ optTest dotB input[position]? then none
  else
    let position := position + countWhile asciiDigitOrDotB (input.drop position)
    let before := position
    let position :=
      if position < input.length then
        let p := sdrSkipWs input position
        let p := if optTest commaOrSemicolonB input[p]? then p + 1 else p
        sdrSkipWs input p
      else position
    if before = position ∨ position = input.length then none
    else
      if ¬ optTest (fun c => c = 'U' ∨ c = 'u') input[position]? then
        some (sdrSkipQuotes input position)
      else
        let position := position + 1
        if ¬ optTest (fun c => c = 'R' ∨ c = 'r') input[position]? then
          some (sdrSkipQuotes input position)
        else
          let position := position + 1
          if ¬ optTest (fun c => c = 'L' ∨ c = 'l') input[position]? then
            some (sdrSkipQuotes input position)
          else
            let position := position + 1
            let position := sdrSkipWs input position
            if ¬ (input[position]? = some '=') then
              some (sdrSkipQuotes input position)
            else
              let position := position + 1
              let position := sdrSkipWs input position
              some (sdrSkipQuotes input position)

/-- The fatal diagnostic raised when the embedded URL text does not
parse relative to the base. -/
def sdrErrorMessage (urlString : String) (base : Url) : Msg :=
  { reason := "Unexpected invalid URL `" ++ urlString ++
      "` in `content` on `meta[http-equiv=refresh] relative to `" ++
      base.href ++ "`",
    ruleId := some "shared-declarative-refresh", source := some "dead-or-alive",
    fatal := some true, url := some (documentation ++ "#shared-declarative-refresh") }

/-- The shared declarative refresh steps: `(content, base)` to an
optional redirect target, raising the fatal
`shared-declarative-refresh` diagnostic when the extracted URL text
does not parse relative to the base. -/
def sharedDeclarativeRefresh (input : String) (base : Url) : Except Msg (Option Url) :=
  match sdrExtract input.toList with
  | none => Except.ok none
  | some urlChars =>
    match resolveUrl (String.mk urlChars) base with
    | some u => Except.ok (some u)
    | none => Except.error (sdrErrorMessage (String.mk urlChars) base)

/-- Modelled from the spec: the external `levenshtein-edit-distance`
collaborator, the classic case-sensitive Levenshtein edit distance. -/
def levenshteinEditDistance : List Char → List Char → Nat
  | [], bs => bs.length
  | a :: as, [] => (a :: as).length
  | a :: as, b :: bs =>
    if a = b then levenshteinEditDistance as bs
    else 1 + min (levenshteinEditDistance as bs)
      (min (levenshteinEditDistance (a :: as) bs) (levenshteinEditDistance as (b :: bs)))
termination_by as bs => as.length + bs.length
decreasing_by all_goals simp +arith

/-- The relative threshold of `propose.js`. -/
def relativeThreshold : ℚ := 1 / 2

/-- The maximum number of proposals of `propose.js`. -/
def proposeMax : Nat := 4

/-- The normalised distance of `propose.js`: edit distance between
target and candidate divided by the length of the target. -/
def normScore (value d : String) : ℚ :=
  (levenshteinEditDistance value.toList d.toList : ℚ) / value.length

/-- The `score` helper of `propose.js`: candidate paired with its
normalised distance. -/
def proposeScore (value d : String) : String × ℚ :=
  (d, normScore value d)

/-- The `sort` comparator of `propose.js` (`a[1] - b[1]`, an ascending
stable sort on the score). -/
def proposeLe (a b : String × ℚ) : Bool := a.2 ≤ b.2

/-- The `filter` helper of `propose.js`: keep scores strictly below the
relative threshold. -/
def proposeFilter (d : String × ℚ) : Bool := d.2 < relativeThreshold

/-- The suggestion engine `propose`: score every idea, sort ascending
by score (stably), keep those under the threshold, project the values
and take at most `proposeMax`. -/
def propose (value : String) (ideas : List String) : List String :=
  (((((ideas.map (fun d => proposeScore value d)).mergeSort proposeLe).filter
    (fun d => proposeFilter d)).map (fun d => d.1)).take proposeMax)

/-- An element of the HTML tree, abstracting the external hast node:
tag name, `id` and `name` attribute values, and the values of those
attributes that the URL-attribute registry marks as URL-carrying for
this element. -/
structure HElement where
  tagName : String
  idAttr : Option String
  nameAttr : Option String
  urlAttrValues : List String
deriving DecidableEq, Repr

/-- The record of owning elements for one anchor name, as in
`anchors.js`: up to four simultaneous owner kinds. -/
structure Anchor where
  systemId : Option HElement := none
  systemName : Option HElement := none
  userId : Option HElement := none
  userName : Option HElement := none
deriving DecidableEq, Repr

/-- The clobber marker string of `anchors.js` (`user-content-`). -/
def clobberMark : String := "user-content-"

/-- Lookup in the anchor map (modelling `Map.get`). -/
def anchorGet : List (String × Anchor) → String → Option Anchor
  | [], _ => none
  | p :: m, k => if p.1 = k then some p.2 else anchorGet m k

/-- Update in the anchor map (modelling `Map.set`): replace the binding
in place when the key exists, append otherwise (insertion order of
keys is preserved, as for a JavaScript `Map`). -/
def anchorPut : List (String × Anchor) → String → Anchor → List (String × Anchor)
  | [], k, a => [(k, a)]
  | p :: m, k, a => if p.1 = k then (k, a) :: m else p :: anchorPut m k a

/-- The key under which the `set` helper of `anchors.js` records a
value: the raw value, or the value with the clobber marker stripped
when acceptance is on and the value starts with the marker. -/
def anchorKeyOf (resolveClobber : Bool) (value : String) : String :=
  if strStartsWith value clobberMark && resolveClobber then
    String.mk (value.toList.drop clobberMark.length)
  else value

/-- The updated anchor record of the `set` helper: the field for the
user variant of the kind when the marker was stripped, the system
variant otherwise; the other fields are preserved. -/
def anchorNew (user isName : Bool) (anchor : Anchor) (node : HElement) : Anchor :=
  if user then
    (if isName then { anchor with userName := some node }
     else { anchor with userId := some node })
  else
    (if isName then { anchor with systemName := some node }
     else { anchor with systemId := some node })

/-- The `set` helper of `anchors.js`: strip the clobber marker when
acceptance is on and the raw value starts with it (recording under the
user variant of the kind), otherwise record under the system variant. -/
def anchorSet (resolveClobber : Bool) (m : List (String × Anchor)) (isName : Bool)
    (value : String) (node : HElement) : List (String × Anchor) :=
  let key := anchorKeyOf resolveClobber value
  anchorPut m key
    (anchorNew (strStartsWith value clobberMark && resolveClobber) isName
      ((anchorGet m key).getD ⟨none, none, none, none⟩) node)

/-- The per-element visitor of `getAnchors`: a truthy `id` is recorded
for any element, a truthy `name` additionally for `a` elements. -/
def anchorVisit (resolveClobber : Bool) (m : List (String × Anchor)) (node : HElement) :
    List (String × Anchor) :=
  let m :=
    match node.idAttr with
    | some v => if v = "" then m else anchorSet resolveClobber m false v node
    | none => m
  match node.nameAttr with
  | some v =>
    if node.tagName = "a" ∧ ¬ (v = "") then anchorSet resolveClobber m true v node else m
  | none => m

/-- The anchor index builder `getAnchors`: visit every element once in
document order. -/
def getAnchors (tree : List HElement) (resolveClobber : Bool) : List (String × Anchor) :=
  tree.foldl (anchorVisit resolveClobber) []

/-- The anchor lookup of the resolution engine (`index.js`): the
fragment resolves when the matched record has any of the four owner
kinds present. -/
def anchorFound (m : List (String × Anchor)) (fragment : String) : Bool :=
  match anchorGet m fragment with
  | some a => a.systemId.isSome || a.systemName.isSome || a.userId.isSome || a.userName.isSome
  | none => false

/-- Modelled from the spec: the external content-type parser; extracts
the media type before any parameters, trimmed and lowercased. -/
def mediaTypeOf (s : String) : String :=
  let t := s.toList.takeWhile (fun c => c ≠ Char.ofNat 59)
  let t := t.dropWhile asciiWhitespaceB
  let t := (t.reverse.dropWhile asciiWhitespaceB).reverse
  String.mk (t.map Char.toLower)

/-- Modelled from the spec: the tail of the disjunctive English list
format used for anchor proposals. -/
def listFormatTail : List String → String
  | [] => ""
  | [a] => "or " ++ a
  | a :: rest => a ++ ", " ++ listFormatTail rest

/-- Modelled from the spec: the external disjunctive English list
formatter (`a`, `a or b`, `a, b, or c`); the empty list renders as the
empty string, which suppresses the such-as clause. -/
def listFormatDisjunction : List String → String
  | [] => ""
  | [a] => a
  | [a, b] => a ++ " or " ++ b
  | a :: rest => a ++ ", " ++ listFormatTail rest

/-- The rendered proposal list for a missing fragment: proposals from
the suggestion engine over the anchor map keys, each backtick-quoted. -/
def proposalText (fragment : String) (keys : List String) : String :=
  listFormatDisjunction ((propose fragment keys).map (fun d => "`" ++ d ++ "`"))

/-- Fatal `max-redirect` diagnostic, naming the hop that would have
been fetched next. -/
def maxRedirectMessage (u : Url) : Msg :=
  { reason := "Unexpected redirect to `" ++ u.href ++ "`, too many redirects",
    ruleId := some "max-redirect", source := some "dead-or-alive",
    fatal := some true, url := some (documentation ++ "#max-redirect") }

/-- Fatal `fetch` diagnostic after exhausting retries on transport
failure. -/
def fetchErrorMessage (u : Url) : Msg :=
  { reason := "Unexpected error fetching `" ++ u.href ++ "`",
    ruleId := some "fetch", source := some "dead-or-alive",
    fatal := some true, url := some (documentation ++ "#fetch") }

/-- Fatal `dead` diagnostic carrying status code, status text and the
effective response URL. -/
def deadMessage (status : Nat) (statusText : String) (responseUrl : Url) : Msg :=
  { reason := "Unexpected not ok response `" ++ toString status ++ "` (`" ++
      statusText ++ "`) on `" ++ responseUrl.href ++ "`",
    ruleId := some "dead", source := some "dead-or-alive",
    fatal := some true, url := some (documentation ++ "#dead") }

/-- Warning for a fragment lost over an HTTP redirect. -/
def lostHashRedirectMessage (url redirect : Url) : Msg :=
  { reason := "Unexpected hash in URL `" ++ url.href ++ "` that redirects to `" ++
      redirect.href ++ "` losing the hash, remove the hash from the original URL",
    ruleId := some "lost-hash-with-redirect", source := some "dead-or-alive",
    fatal := none, url := some (documentation ++ "#lost-hash-with-redirect") }

/-- Warning for a fragment lost over an HTML meta refresh redirect. -/
def lostHashMetaMessage (url redirect : Url) : Msg :=
  { reason := "Unexpected hash in URL `" ++ url.href ++
      "` that redirects with `meta[http-equiv=refresh] to `" ++ redirect.href ++
      "` losing the hash, remove the hash from the original URL",
    ruleId := some "lost-hash-with-meta-http-equiv", source := some "dead-or-alive",
    fatal := none, url := some (documentation ++ "#lost-hash-with-meta-http-equiv") }

/-- Warning for a fragment pointing into a non-HTML resource. -/
def lostHashNonHtmlMessage (url : Url) (contentType : Option String) : Msg :=
  { reason := "Unexpected hash in URL `" ++ url.href ++ "` to non-html (`" ++
      contentType.getD "undefined" ++
      "`) losing the hash, remove the hash from the original URL",
    ruleId := some "lost-hash-with-non-html", source := some "dead-or-alive",
    fatal := none, url := some (documentation ++ "#lost-hash-with-non-html") }

/-- Fatal `missing-anchor` diagnostic, with the optional such-as clause
listing the rendered proposals. -/
def missingAnchorMessage (responseUrl : Url) (fragment : String) (proposals : String) : Msg :=
  { reason := "Unexpected missing anchor element on `" ++ responseUrl.href ++
      "` for fragment `" ++ fragment ++
      "`, remove if unneeded or refer to an existing element" ++
      (if proposals = "" then "" else " such as " ++ proposals),
    ruleId := some "missing-anchor", source := some "dead-or-alive",
    fatal := some true, url := some (documentation ++ "#missing-anchor") }

/-- The parsed HTML document: the content attribute of the selected
`meta[http-equiv=refresh]` element when one exists, and the element
tree flattened in visit order. -/
structure HtmlDoc where
  metaRefresh : Option String
  elements : List HElement
deriving DecidableEq, Repr

/-- A fetched response: status, status text, `location` and
`content-type` headers, effective URL, and the lazily readable body
(`none` models a body whose accessor is unavailable, to witness that a
code path never reads it). -/
structure Response where
  status : Nat
  statusText : String
  location : Option String
  contentType : Option String
  url : Url
  body : Option HtmlDoc
deriving DecidableEq, Repr

/-- The fetch `ok` flag: status in the 2xx range. -/
def Response.ok (r : Response) : Bool := 200 ≤ r.status && r.status ≤ 299

/-- One scripted outcome of a fetch attempt: transport failure (network
error or timeout) or a response. -/
inductive FetchOutcome
  | failure
  | success (r : Response)
deriving DecidableEq, Repr

/-- Observable effects of a resolution, in order: a request issued for
a URL, a backoff sleep, a body read, and the two redirect kinds with
the permanence-relevant data. -/
inductive Effect
  | fetchReq (href : String)
  | sleep (ms : Nat)
  | readBody
  | httpRedirect (status : Nat)
  | metaRedirect
deriving DecidableEq, Repr

/-- The resolved configuration of one check (`deadOrAlive` option
defaults already applied). Allowlist patterns are abstract string
predicates standing for the regular expressions. -/
structure Config where
  anchorAllowlist : List ((String → Bool) × (String → Bool))
  checkAnchor : Bool
  findUrls : Bool
  followMetaHttpEquiv : Bool
  maxRedirects : Nat
  maxRetries : Nat
  resolveClobber : Bool
  sleep : Nat → Nat
  timeout : Nat
  userAgent : String

/-- The mutable resolution state threaded through one check. -/
structure RState where
  messages : List Msg
  permanent : Option Bool
  redirects : Nat
  retries : Nat
  urls : Option (List String)
deriving DecidableEq, Repr

/-- Terminal outcome of the internal resolution: a final URL, a thrown
fatal diagnostic, or `stuck` (fuel or script exhausted — an artefact of
the finite model, not a behaviour of the code). -/
inductive ROutcome
  | alive (u : Url)
  | fatal (m : Msg)
  | stuck
deriving DecidableEq, Repr

/-- Result of running the resolution: outcome, final state, remaining
script, and the effect trace. -/
structure RunResult where
  outcome : ROutcome
  state : RState
  script : List FetchOutcome
  trace : List Effect
deriving DecidableEq, Repr

/-- Prepend effects to a run result's trace. -/
def RunResult.withTrace (es : List Effect) (r : RunResult) : RunResult :=
  { r with trace := es ++ r.trace }

/-- Append a warning to the state (`state.messages.push`). -/
def pushMessage (st : RState) (m : Msg) : RState :=
  { st with messages := st.messages ++ [m] }

/-- The permanence bookkeeping on an HTTP redirect: 301 and 308 set
`permanent` to true only when still unset; anything else forces it to
false. -/
def permUpdateHttp (status : Nat) (st : RState) : RState :=
  if status = 301 ∨ status = 308 then
    (if st.permanent = none then { st with permanent := some true } else st)
  else { st with permanent := some false }

/-- The location header to follow: present on a 3xx status with a
truthy `location` header, absent otherwise. -/
def locationToFollow (r : Response) : Option String :=
  if 300 ≤ r.status ∧ r.status < 400 then
    match r.location with
    | some l => if l = "" then none else some l
    | none => none
  else none

/-- The declared content type (`headers.get('content-type') ||
undefined`): the empty string is treated as absent. -/
def contentTypeOf (r : Response) : Option String :=
  match r.contentType with
  | some c => if c = "" then none else some c
  | none => none

/-- Reattach a hash by string concatenation and reparse
(`new URL(response.url + url.hash)`). -/
def appendHash (u : Url) (hash : String) : Url :=
  if hash = "" then u else { u with hash := u.hash ++ hash }

/-- The allowlist check: some rule's URL pattern matches origin plus
pathname and its fragment pattern matches the fragment text. -/
def allowAnchor (allowlist : List ((String → Bool) × (String → Bool)))
    (baseUrl fragment : String) : Bool :=
  allowlist.any (fun p => p.1 baseUrl && p.2 fragment)

/-- The `findUrls` helper of `index.js`: resolve every URL-carrying
attribute value against the request URL, silently dropping values that
fail to parse, collecting the hrefs deduplicated in insertion order. -/
def findUrlsModel (url : Url) (elements : List HElement) : List String :=
  elements.foldl (fun acc node =>
    node.urlAttrValues.foldl (fun acc v =>
      match resolveUrl v url with
      | some found => if acc.contains found.href then acc else acc ++ [found.href]
      | none => acc) acc) []

/-- The `handleUnknown` helper of `index.js`: warn when the URL carries
a fragment while anchor checking is on, then return the effective
response URL. -/
def handleUnknownModel (cfg : Config) (st : RState) (url : Url) (r : Response)
    (contentType : Option String) : RState × Url :=
  let st :=
    if cfg.checkAnchor ∧ ¬ (url.hash = "") then
      pushMessage st (lostHashNonHtmlMessage url contentType)
    else st
  (st, r.url)

/-- Entry points of the mutually recursive resolution: the per-hop
`deadOrAliveInternal` on a URL, and `handleTextHtml` on a URL and an
HTML response. -/
inductive Mode
  | internal (url : Url)
  | html (url : Url) (r : Response)

/-- The meta refresh redirect computation of `handleTextHtml`: when
following is enabled and a `meta[http-equiv=refresh]` element with a
truthy content attribute exists, run the declarative-refresh parser
against the response URL. -/
def metaRedirectE (followMeta : Bool) (doc : HtmlDoc) (rurl : Url) : Except Msg (Option Url) :=
  if followMeta then
    match doc.metaRefresh with
    | some content =>
      if content = "" then Except.ok none
      else sharedDeclarativeRefresh content rurl
    | none => Except.ok none
  else Except.ok none

/-- The resolution engine of `index.js`, fuel-indexed. The `internal`
mode is `deadOrAliveInternal`: redirect ceiling check, fetch (consuming
the script head), retry with backoff on transport failure, redirect
following with permanence and lost-hash bookkeeping, the retry-or-die
decision on not-ok statuses, and content-type dispatch. The `html`
mode is `handleTextHtml`: the no-parse fast path, the meta refresh
redirect, URL discovery, and fragment validation against the anchor
index, the allowlist and the suggestion engine. -/
def run (cfg : Config) : Nat → Mode → RState → List FetchOutcome → RunResult
  | 0, _, st, sc => { outcome := .stuck, state := st, script := sc, trace := [] }
  | fuel + 1, .internal url, st, sc =>
    if st.redirects > cfg.maxRedirects then
      { outcome := .fatal (maxRedirectMessage url), state := st, script := sc, trace := [] }
    else
      match sc with
      | [] => { outcome := .stuck, state := st, script := [], trace := [] }
      | .failure :: rest =>
        if st.retries < cfg.maxRetries then
          let st := { st with retries := st.retries + 1 }
          (run cfg fuel (.internal url) st rest).withTrace
            [.fetchReq url.href, .sleep (cfg.sleep st.retries)]
        else
          { outcome := .fatal (fetchErrorMessage url), state := st, script := rest,
            trace := [.fetchReq url.href] }
      | .success r :: rest =>
        let st := { st with retries := 0 }
        match locationToFollow r with
        | some l =>
          match resolveUrl l url with
          | none =>
            { outcome := .fatal (invalidUrlError l), state := st, script := rest,
              trace := [.fetchReq url.href] }
          | some redirect =>
            let st := permUpdateHttp r.status st
            let st :=
              if ¬ (url.hash = "") then pushMessage st (lostHashRedirectMessage url redirect)
              else st
            let st := { st with redirects := st.redirects + 1 }
            (run cfg fuel (.internal redirect) st rest).withTrace
              [.fetchReq url.href, .httpRedirect r.status]
        | none =>
          if ¬ r.ok then
            if st.retries < cfg.maxRetries ∧ (r.status < 400 ∨ 500 ≤ r.status) then
              let st := { st with retries := st.retries + 1 }
              (run cfg fuel (.internal url) st rest).withTrace
                [.fetchReq url.href, .sleep (cfg.sleep st.retries)]
            else
              { outcome := .fatal (deadMessage r.status r.statusText r.url), state := st,
                script := rest, trace := [.fetchReq url.href] }
          else
            match contentTypeOf r with
            | some ct =>
              if mediaTypeOf ct = "text/html" then
                (run cfg fuel (.html url r) st rest).withTrace [.fetchReq url.href]
              else
                let su := handleUnknownModel cfg st url r (some ct)
                { outcome := .alive su.2, state := su.1, script := rest,
                  trace := [.fetchReq url.href] }
            | none =>
              let su := handleUnknownModel cfg st url r none
              { outcome := .alive su.2, state := su.1, script := rest,
                trace := [.fetchReq url.href] }
  | fuel + 1, .html url r, st, sc =>
    if ¬ ((cfg.checkAnchor ∧ ¬ (url.hash = "")) ∨ cfg.findUrls ∨ cfg.followMetaHttpEquiv) then
      { outcome := .alive r.url, state := st, script := sc, trace := [] }
    else
      match r.body with
      | none => { outcome := .stuck, state := st, script := sc, trace := [.readBody] }
      | some doc =>
        match metaRedirectE cfg.followMetaHttpEquiv doc r.url with
        | .error m =>
          { outcome := .fatal m, state := st, script := sc, trace := [.readBody] }
        | .ok (some redirect) =>
          let st :=
            if cfg.checkAnchor ∧ ¬ (url.hash = "") then
              pushMessage st (lostHashMetaMessage url redirect)
            else st
          let st := { st with permanent := some false }
          let st := { st with redirects := st.redirects + 1 }
          (run cfg fuel (.internal redirect) st sc).withTrace [.readBody, .metaRedirect]
        | .ok none =>
          let st := if cfg.findUrls then { st with urls := some (findUrlsModel url doc.elements) } else st
          if cfg.checkAnchor ∧ ¬ (url.hash = "") then
            let baseUrl := r.url.origin ++ r.url.pathname
            let fragment := String.mk (url.hash.toList.drop 1)
            let result := { r.url with hash := url.hash }
            if allowAnchor cfg.anchorAllowlist baseUrl fragment then
              { outcome := .alive result, state := st, script := sc, trace := [.readBody] }
            else
              let anchors := getAnchors doc.elements cfg.resolveClobber
              if anchorFound anchors fragment then
                { outcome := .alive result, state := st, script := sc, trace := [.readBody] }
              else
                { outcome := .fatal (missingAnchorMessage r.url fragment
                    (proposalText fragment (anchors.map (fun p => p.1)))),
                  state := st, script := sc, trace := [.readBody] }
          else
            { outcome := .alive (appendHash r.url url.hash), state := st, script := sc,
              trace := [.readBody] }

/-- The fresh state allocated per top-level check. -/
def initialState : RState :=
  { messages := [], permanent := none, redirects := 0, retries := 0, urls := none }

/-- The per-hop recursion of `index.js` (`deadOrAliveInternal`). -/
def deadOrAliveInternal (cfg : Config) (fuel : Nat) (st : RState) (sc : List FetchOutcome)
    (url : Url) : RunResult :=
  run cfg fuel (.internal url) st sc

/-- The HTML handler of `index.js` (`handleTextHtml`). -/
def handleTextHtml (cfg : Config) (fuel : Nat) (st : RState) (sc : List FetchOutcome)
    (url : Url) (r : Response) : RunResult :=
  run cfg fuel (.html url r) st sc

/-- The argument accepted by the public entry point: a string or an
already parsed URL. -/
inductive Href
  | str (s : String)
  | url (u : Url)

/-- The public result record. -/
structure DOAResult where
  status : String
  url : Option String
  messages : List Msg
  permanent : Option Bool
  urls : Option (List String)
deriving DecidableEq, Repr

/-- The public entry point `deadOrAlive`: parse the input inside the
guard, run the internal resolution, and convert any thrown diagnostic
into the `dead` outcome with the fatal message prepended. Returns
`none` only when the model runs out of fuel or script. -/
def deadOrAlive (cfg : Config) (fuel : Nat) (script : List FetchOutcome) (href : Href) :
    Option DOAResult × List Effect :=
  let parsed : Except Msg Url :=
    match href with
    | .str s =>
      match parseAbsoluteUrl s with
      | some u => Except.ok u
      | none => Except.error (invalidUrlError s)
    | .url u => Except.ok u
  match parsed with
  | .error m =>
    (some { status := "dead", url := none, messages := [m], permanent := none, urls := none },
      [])
  | .ok u =>
    let r := run cfg fuel (.internal u) initialState script
    match r.outcome with
    | .alive finalUrl =>
      (some { status := "alive", url := some finalUrl.href,
              messages := r.state.messages,
              permanent := r.state.permanent, urls := r.state.urls }, r.trace)
    | .fatal m =>
      (some { status := "dead", url := none,
              messages := m :: r.state.messages,
              permanent := r.state.permanent, urls := r.state.urls }, r.trace)
    | .stuck => (none, r.trace)

/-- The base URL https://example.com/from used by the refresh parser
examples. -/
def exFrom : Url :=
  { origin := "https://example.com", pathname := "/from", search := "", hash := "" }

/-- The URL https://example.com/to that the refresh parser examples
resolve to. -/
def exTo : Url :=
  { origin := "https://example.com", pathname := "/to", search := "", hash := "" }

/-- The URL https://example.com/. -/
def exHome : Url :=
  { origin := "https://example.com", pathname := "/", search := "", hash := "" }

/-- The configuration produced by `deadOrAlive` with no options: all
defaults applied; the default allowlist admits text fragments
everywhere, the default sleep is cubic seconds. -/
def defaultConfig : Config :=
  { anchorAllowlist := [(fun s => s.length ≥ 1, fun f => strStartsWith f ":~:")],
    checkAnchor := true, findUrls := true, followMetaHttpEquiv := true,
    maxRedirects := 5, maxRetries := 1, resolveClobber := true,
    sleep := fun n => n * n * n * 1000, timeout := 3000,
    userAgent := "Mozilla/5.0 (Macintosh; Intel Mac OS X 10_15_7) AppleWebKit/537.36 (KHTML, like Gecko) Chrome/117.0.0.0 Safari/537.36" }

/-- The fast-path configuration: anchor checking, URL discovery and
meta refresh following all disabled. -/
def fastConfig : Config :=
  { defaultConfig with checkAnchor := false, findUrls := false, followMetaHttpEquiv := false }

/-- A plain non-HTML 2xx-or-error response fixture. -/
def plainResponse (status : Nat) (statusText : String) (u : Url) : Response :=
  { status := status, statusText := statusText, location := none,
    contentType := some "text/plain", url := u, body := none }

/-- An HTTP redirect response fixture. -/
def redirectResponse (status : Nat) (l : String) : Response :=
  { status := status, statusText := "", location := some l,
    contentType := none, url := exHome, body := none }

/-- An HTML 200 response fixture. -/
def htmlResponse (u : Url) (doc : HtmlDoc) : Response :=
  { status := 200, statusText := "OK", location := none,
    contentType := some "text/html", url := u, body := some doc }

/-- The successive resolution targets of a list of location headers,
starting from a base URL; `none` when some location fails to resolve. -/
def chainTargets (base : Url) : List String → Option (List Url)
  | [] => some []
  | l :: ls =>
    match resolveUrl l base with
    | none => none
    | some u => (chainTargets u ls).map (fun us => u :: us)

/-- The fetch script consisting of one 301 redirect response per
location header. -/
def redirectScript (locs : List String) : List FetchOutcome :=
  locs.map (fun l => .success (redirectResponse 301 l))

/-- The permanence-relevant content of one effect: `some b` for a
redirect event, where `b` states that the redirect was an HTTP 301 or
308; `none` for everything else. -/
def permEvent : Effect → Option Bool
  | .httpRedirect status => some (status = 301 ∨ status = 308)
  | .metaRedirect => some false
  | _ => none

/-- The redirect events of a trace, as permanence booleans. -/
def permEvents (tr : List Effect) : List Bool := tr.filterMap permEvent

/-- One step of the permanence bookkeeping, as a function of the
current tri-state and whether the redirect was an HTTP 301 or 308. -/
def permStep (p : Option Bool) (e : Bool) : Option Bool :=
  if e then (if p = none then some true else p) else some false

/-- The resolution state reached after following a chain of permanent
redirects: the redirect counter advanced by the chain length; on a
nonempty chain the retry counter is reset and the permanence tri-state
is true unless it was already forced false. -/
def chainState (st : RState) (locs : List String) : RState :=
  { st with
    redirects := st.redirects + locs.length
    retries := if locs.isEmpty then st.retries else 0
    permanent := if locs.isEmpty then st.permanent else some (st.permanent.getD true) }

/-- The run invariant relating a run result to the state it started
from: messages only grow, and only by non-fatal warnings; a thrown
diagnostic is fatal (or is the bare URL parse error, which has no rule
identifier); and the final permanence tri-state is the fold of the
permanence bookkeeping over the redirect events of the trace. -/
def RunInv (r : RunResult) (st : RState) : Prop :=
  (∃ ms, r.state.messages = st.messages ++ ms ∧ ∀ m ∈ ms, m.fatal = none) ∧
  (∀ m, r.outcome = ROutcome.fatal m → m.fatal = some true ∨ m.ruleId = none) ∧
  (r.state.permanent = List.foldl permStep st.permanent (permEvents r.trace))

/-- The URL https://example.com/1. -/
def exStep1 : Url :=
  { origin := "https://example.com", pathname := "/1", search := "", hash := "" }

/-- The public result of checking https://example.com/ against a
single 404 response under the default configuration. -/
def deadResult404 : DOAResult :=
  { status := "dead", url := none, messages := [deadMessage 404 "Not Found" exHome],
    permanent := none, urls := none }

/-! Theorems. -/

set_option maxHeartbeats 3000000 in
/-- Helper for C2: a missing first keyword letter that is a quote goes
through quote-stripping, which recognises and truncates it. -/
theorem sdrExtract_missing_u_quote (q : Char) (t : List Char)
    (hq : q = Char.ofNat 34 ∨ q = Char.ofNat 39) :
    sdrExtract ('0' :: ';' :: q :: t) = some (t.takeWhile (fun d => d ≠ q)) := by
  rcases hq with h | h <;> subst h <;>
    simp +decide +arith [sdrExtract, sdrSkipWs, countWhile, optTest, sdrSkipQuotes]

set_option maxHeartbeats 3000000 in
/-- Helper for C2: after `U` is consumed, a missing `R` returns the URL
text captured before the keyword, with no quote handling. -/
theorem sdrExtract_u_no_r (c : Char) (t : List Char) (h : ¬ (c = 'R' ∨ c = 'r')) :
    sdrExtract ('0' :: ';' :: 'u' :: c :: t) = some ('u' :: c :: t) := by
  simp +decide +arith [sdrExtract, sdrSkipWs, countWhile, optTest, sdrSkipQuotes, h]

set_option maxHeartbeats 3000000 in
/-- Helper for C2: after `UR` is consumed, a missing `L` returns the
URL text captured before the keyword, with no quote handling. -/
theorem sdrExtract_ur_no_l (c : Char) (t : List Char) (h : ¬ (c = 'L' ∨ c = 'l')) :
    sdrExtract ('0' :: ';' :: 'u' :: 'r' :: c :: t) = some ('u' :: 'r' :: c :: t) := by
  simp +decide +arith [sdrExtract, sdrSkipWs, countWhile, optTest, sdrSkipQuotes, h]

set_option maxHeartbeats 3000000 in
/-- Helper for C2: after the full keyword, a missing `=` returns the
URL text captured before the keyword, with no quote handling. -/
theorem sdrExtract_url_no_eq (c : Char) (t : List Char)
    (hw : ¬ asciiWhitespaceB c) (he : ¬ (c = '=')) :
    sdrExtract ('0' :: ';' :: 'u' :: 'r' :: 'l' :: c :: t) =
      some ('u' :: 'r' :: 'l' :: c :: t) := by
  simp +decide +arith [sdrExtract, sdrSkipWs, countWhile, optTest, sdrSkipQuotes, hw, he]

/-- C2, counterexample: on the content string 0;u"to"c — which has `U`
but not `R` — the parser does not fall back to quote-stripping: the
extracted URL text is the full captured text, quotes and the character
after the closing quote included. The claim's reading (fall back to
the quote-stripping step, so that the text is truncated at the
matching closing quote) yields a different extraction, as
`sdrExtractSpecC2` shows. -/
theorem sdr_keyword_fallback_counterexample :
    sdrExtract "0;u\"to\"c".toList = some "u\"to\"c".toList ∧
    sdrExtractSpecC2 "0;u\"to\"c".toList = some "to".toList ∧
    sdrExtract "0;u\"to\"c".toList ≠ sdrExtractSpecC2 "0;u\"to\"c".toList :=
  ⟨by decide, by decide, by decide⟩

/-- C2, amended: only a missing first keyword letter falls back to the
quote-stripping step (with nothing consumed, so nothing is folded
back); once `U` is consumed, a missing `R`, a missing `L`, or a
missing `=` after the keyword bypasses quote-stripping entirely and
the parser uses the URL text captured before the keyword attempt,
keyword letters included and quotes unrecognised. -/
theorem sdr_keyword_fallback :
    (∀ (q : Char) (t : List Char), (q = Char.ofNat 34 ∨ q = Char.ofNat 39) →
      sdrExtract ('0' :: ';' :: q :: t) = some (t.takeWhile (fun d => d ≠ q))) ∧
    (∀ (c : Char) (t : List Char), ¬ (c = 'R' ∨ c = 'r') →
      sdrExtract ('0' :: ';' :: 'u' :: c :: t) = some ('u' :: c :: t)) ∧
    (∀ (c : Char) (t : List Char), ¬ (c = 'L' ∨ c = 'l') →
      sdrExtract ('0' :: ';' :: 'u' :: 'r' :: c :: t) = some ('u' :: 'r' :: c :: t)) ∧
    (∀ (c : Char) (t : List Char), ¬ asciiWhitespaceB c → ¬ (c = '=') →
      sdrExtract ('0' :: ';' :: 'u' :: 'r' :: 'l' :: c :: t) =
        some ('u' :: 'r' :: 'l' :: c :: t)) :=
  ⟨sdrExtract_missing_u_quote, sdrExtract_u_no_r, sdrExtract_ur_no_l, sdrExtract_url_no_eq⟩

/-- C2, witness: the amended theorem applied at the concrete content
string 0;ux'b' (having `U` but not `R`): the extraction keeps the
whole captured text with the quotes intact. -/
theorem sdr_keyword_fallback_witness :
    ¬ ('x' = 'R' ∨ 'x' = 'r') ∧
    sdrExtract ('0' :: ';' :: 'u' :: 'x' :: Char.ofNat 39 :: 'b' :: Char.ofNat 39 :: []) =
      some ('u' :: 'x' :: Char.ofNat 39 :: 'b' :: Char.ofNat 39 :: []) :=
  ⟨by decide,
    sdr_keyword_fallback.2.1 'x' (Char.ofNat 39 :: 'b' :: Char.ofNat 39 :: []) (by decide)⟩

/-- C9: the declarative-refresh parser maps the content string 0;/to
relative to https://example.com/from to https://example.com/to; maps
;/to to absent without error; maps 0;url="to"c to the base-resolved
URL for to, truncating at the closing quote and discarding the
trailing text without error; and whenever the extracted URL text does
not resolve against the base it raises the fatal
shared-declarative-refresh diagnostic whose message names the raw URL
text and the base URL. -/
theorem sdr_examples :
    sharedDeclarativeRefresh "0;/to" exFrom = Except.ok (some exTo) ∧
    sharedDeclarativeRefresh ";/to" exFrom = Except.ok none ∧
    sharedDeclarativeRefresh "0;url=\"to\"c" exFrom = Except.ok (some exTo) ∧
    (∀ (input : String) (base : Url) (urlChars : List Char),
      sdrExtract input.toList = some urlChars →
      resolveUrl (String.mk urlChars) base = none →
      sharedDeclarativeRefresh input base =
        Except.error (sdrErrorMessage (String.mk urlChars) base) ∧
      (sdrErrorMessage (String.mk urlChars) base).reason =
        "Unexpected invalid URL `" ++ String.mk urlChars ++
          "` in `content` on `meta[http-equiv=refresh] relative to `" ++ base.href ++ "`" ∧
      (sdrErrorMessage (String.mk urlChars) base).fatal = some true ∧
      (sdrErrorMessage (String.mk urlChars) base).ruleId = some "shared-declarative-refresh") := by
  refine ⟨rfl, rfl, rfl, ?_⟩
  intro input base urlChars h1 h2
  refine ⟨?_, rfl, rfl, rfl⟩
  unfold sharedDeclarativeRefresh
  rw [h1]
  simp only [h2]

/-- C9, witness: the fatal branch applied at the concrete content
string 0;url=https:// relative to https://example.com/from — the
extracted text https:// has an empty host and does not resolve. -/
theorem sdr_examples_witness :
    sdrExtract "0;url=https://".toList =
      some ['h', 't', 't', 'p', 's', ':', '/', '/'] ∧
    resolveUrl (String.mk ['h', 't', 't', 'p', 's', ':', '/', '/']) exFrom = none ∧
    sharedDeclarativeRefresh "0;url=https://" exFrom =
      Except.error (sdrErrorMessage (String.mk ['h', 't', 't', 'p', 's', ':', '/', '/']) exFrom) :=
  ⟨by decide, by decide,
    (sdr_examples.2.2.2 "0;url=https://" exFrom ['h', 't', 't', 'p', 's', ':', '/', '/']
      (by decide) (by decide)).1⟩

/-- C10: when the input string does not parse as an absolute URL, the
top-level call never throws and performs no fetch (the effect trace is
empty): it returns the dead result with no URL whose only message is
the URL parse error itself, an error that carries no rule identifier
(and no fatal flag), unlike the library's fixed diagnostic kinds. -/
theorem deadOrAlive_invalid_input (cfg : Config) (fuel : Nat) (script : List FetchOutcome)
    (s : String) (h : parseAbsoluteUrl s = none) :
    deadOrAlive cfg fuel script (.str s) =
      (some { status := "dead", url := none, messages := [invalidUrlError s],
              permanent := none, urls := none }, []) ∧
    (invalidUrlError s).ruleId = none ∧ (invalidUrlError s).fatal = none := by
  refine ⟨?_, rfl, rfl⟩
  simp [deadOrAlive, h]

/-- C10, witness: the theorem applied to the unparsable input
not-a-url under the default configuration. -/
theorem deadOrAlive_invalid_input_witness :
    parseAbsoluteUrl "not-a-url" = none ∧
    deadOrAlive defaultConfig 1 [] (.str "not-a-url") =
      (some { status := "dead", url := none, messages := [invalidUrlError "not-a-url"],
              permanent := none, urls := none }, []) :=
  ⟨by decide, (deadOrAlive_invalid_input defaultConfig 1 [] "not-a-url" (by decide)).1⟩

/-- C6: for every HTML response, when URL discovery and meta-refresh
following are disabled and anchor checking is disabled or the current
URL has no fragment, the HTML handler returns the effective response
URL with unchanged state and an empty effect trace: the body accessor
is never invoked (the equation holds for every response, including one
whose body is unavailable). -/
theorem handleTextHtml_fast_path (cfg : Config) (fuel : Nat) (st : RState)
    (sc : List FetchOutcome) (url : Url) (r : Response)
    (hf : cfg.findUrls = false) (hm : cfg.followMetaHttpEquiv = false)
    (ha : cfg.checkAnchor = false ∨ url.hash = "") :
    handleTextHtml cfg (fuel + 1) st sc url r =
      { outcome := .alive r.url, state := st, script := sc, trace := [] } := by
  unfold handleTextHtml run
  rcases ha with h | h <;> simp [hf, hm, h]

/-- C6, witness: the fast path on a fragment-carrying URL and a
response that does contain a meta refresh, under the configuration
with the three toggles off: the body is not read and the response URL
is returned unchanged. -/
theorem handleTextHtml_fast_path_witness :
    fastConfig.findUrls = false ∧ fastConfig.followMetaHttpEquiv = false ∧
    (fastConfig.checkAnchor = false ∨ exHome.hash = "") ∧
    handleTextHtml fastConfig 1 initialState [] { exHome with hash := "#frag" }
        (htmlResponse exHome { metaRefresh := some "0;url=/x", elements := [] }) =
      { outcome := .alive exHome, state := initialState, script := [], trace := [] } :=
  ⟨rfl, rfl, Or.inl rfl,
    handleTextHtml_fast_path fastConfig 0 initialState []
      { exHome with hash := "#frag" }
      (htmlResponse exHome { metaRefresh := some "0;url=/x", elements := [] })
      rfl rfl (Or.inl rfl)⟩

/-- Helper: looking up the key just written into the anchor map. -/
theorem anchorGet_anchorPut_same (m : List (String × Anchor)) (k : String) (a : Anchor) :
    anchorGet (anchorPut m k a) k = some a := by
  induction m with
  | nil => simp [anchorPut, anchorGet]
  | cons p m ih =>
    by_cases h : p.1 = k <;> simp [anchorPut, anchorGet, h, ih]

/-- Helper: updating one key leaves the other lookups unchanged. -/
theorem anchorGet_anchorPut_other (m : List (String × Anchor)) (k k' : String) (a : Anchor)
    (h : k' ≠ k) : anchorGet (anchorPut m k a) k' = anchorGet m k' := by
  induction m with
  | nil => simp [anchorPut, anchorGet, Ne.symm h]
  | cons p m ih =>
    by_cases hp : p.1 = k
    · have hkk : ¬ (k = k') := Ne.symm h
      simp [anchorPut, anchorGet, hp, hkk]
    · simp only [anchorPut, if_neg hp, anchorGet]
      by_cases hp' : p.1 = k' <;> simp [hp', ih]

/-- Helper: the record written by the set helper always carries at least one owner (the field just assigned). -/
theorem anchorNew_found (user isName : Bool) (anchor : Anchor) (node : HElement) :
    ((anchorNew user isName anchor node).systemId.isSome ||
     (anchorNew user isName anchor node).systemName.isSome ||
     (anchorNew user isName anchor node).userId.isSome ||
     (anchorNew user isName anchor node).userName.isSome) = true := by
  cases user <;> cases isName <;> simp [anchorNew]

/-- Helper: after the set helper runs, its key resolves. -/
theorem anchorFound_anchorSet_self (resolveClobber : Bool) (m : List (String × Anchor))
    (isName : Bool) (value : String) (node : HElement) :
    anchorFound (anchorSet resolveClobber m isName value node)
      (anchorKeyOf resolveClobber value) = true := by
  unfold anchorSet anchorFound
  rw [anchorGet_anchorPut_same]
  exact anchorNew_found _ _ _ _

/-- Helper: the set helper never removes a resolvable fragment. -/
theorem anchorFound_anchorSet_mono (resolveClobber : Bool) (m : List (String × Anchor))
    (isName : Bool) (value : String) (node : HElement) (f : String)
    (h : anchorFound m f = true) :
    anchorFound (anchorSet resolveClobber m isName value node) f = true := by
  by_cases hk : f = anchorKeyOf resolveClobber value
  · subst hk; exact anchorFound_anchorSet_self resolveClobber m isName value node
  · unfold anchorSet
    unfold anchorFound at h ⊢
    rw [anchorGet_anchorPut_other _ _ _ _ hk]
    exact h

/-- Helper: visiting one element never removes a resolvable fragment. -/
theorem anchorFound_anchorVisit_mono (resolveClobber : Bool) (m : List (String × Anchor))
    (node : HElement) (f : String) (h : anchorFound m f = true) :
    anchorFound (anchorVisit resolveClobber m node) f = true := by
  unfold anchorVisit
  have h1 : ∀ m0, anchorFound m0 f = true →
      anchorFound (match node.nameAttr with
        | some v => if node.tagName = "a" ∧ ¬ (v = "") then
            anchorSet resolveClobber m0 true v node else m0
        | none => m0) f = true := by
    intro m0 h0
    cases node.nameAttr with
    | none => exact h0
    | some v =>
      by_cases hc : node.tagName = "a" ∧ ¬ (v = "")
      · simp only [if_pos hc]; exact anchorFound_anchorSet_mono _ _ _ _ _ _ h0
      · simp only [if_neg hc]; exact h0
  apply h1
  cases node.idAttr with
  | none => exact h
  | some v =>
    by_cases hv : v = ""
    · simp only [if_pos hv]; exact h
    · simp only [if_neg hv]; exact anchorFound_anchorSet_mono _ _ _ _ _ _ h

/-- Helper: walking further elements never removes a resolvable fragment. -/
theorem anchorFound_foldl (resolveClobber : Bool) (l : List HElement)
    (m : List (String × Anchor)) (f : String) (h : anchorFound m f = true) :
    anchorFound (l.foldl (anchorVisit resolveClobber) m) f = true := by
  induction l generalizing m with
  | nil => exact h
  | cons e l ih =>
    exact ih _ (anchorFound_anchorVisit_mono resolveClobber m e f h)

/-- Helper: a clobber-marked value is truthy. -/
theorem clobber_append_ne_empty (f : String) : clobberMark ++ f ≠ "" := by
  intro h
  have hd : (clobberMark ++ f).data = ("" : String).data := by rw [h]
  rw [String.data_append] at hd
  have := congrArg List.length hd
  simp [clobberMark] at this

/-- Helper: a clobber-marked value differs from the bare name. -/
theorem clobber_append_ne (f : String) : clobberMark ++ f ≠ f := by
  intro h
  have hd : (clobberMark ++ f).data = f.data := by rw [h]
  rw [String.data_append] at hd
  have := congrArg List.length hd
  rw [List.length_append] at this
  have hc : clobberMark.data.length = 13 := by decide
  omega

/-- Helper: with acceptance on, a clobber-marked value is recorded under the stripped name. -/
theorem anchorKeyOf_clobber (f : String) : anchorKeyOf true (clobberMark ++ f) = f := by
  unfold anchorKeyOf
  have h1 : strStartsWith (clobberMark ++ f) clobberMark = true := by
    simp [strStartsWith, String.toList]
  rw [h1]
  simp only [Bool.and_self, if_true, if_pos]
  have h2 : (clobberMark ++ f).toList.drop clobberMark.length = f.toList := by
    show ((clobberMark ++ f).data.drop clobberMark.length) = f.data
    rw [String.data_append]
    exact List.drop_left' rfl
  rw [h2]
  rfl

/-- Helper: a value that is not stripped is recorded under itself. -/
theorem anchorKeyOf_raw (rc : Bool) (f : String)
    (h : (strStartsWith f clobberMark && rc) = false) : anchorKeyOf rc f = f := by
  unfold anchorKeyOf
  rw [h]
  simp

/-- Helper: visiting an element with a truthy id records its key. -/
theorem anchorFound_anchorVisit_id (rc : Bool) (m : List (String × Anchor)) (e : HElement)
    (value f : String) (hv : value ≠ "") (hkey : anchorKeyOf rc value = f)
    (hid : e.idAttr = some value) :
    anchorFound (anchorVisit rc m e) f = true := by
  unfold anchorVisit
  simp only [hid, if_neg hv]
  have base : anchorFound (anchorSet rc m false value e) f = true := by
    have := anchorFound_anchorSet_self rc m false value e
    rwa [hkey] at this
  cases hne : e.nameAttr with
  | none => exact base
  | some v =>
    by_cases hc : e.tagName = "a" ∧ ¬ (v = "")
    · simp only [if_pos hc]; exact anchorFound_anchorSet_mono _ _ _ _ _ _ base
    · simp only [if_neg hc]; exact base

/-- Helper: visiting an `a` element with a truthy name records its key. -/
theorem anchorFound_anchorVisit_name (rc : Bool) (m : List (String × Anchor)) (e : HElement)
    (value f : String) (hv : value ≠ "") (hkey : anchorKeyOf rc value = f)
    (ht : e.tagName = "a") (hn : e.nameAttr = some value) :
    anchorFound (anchorVisit rc m e) f = true := by
  unfold anchorVisit
  simp only [hn, if_pos (show e.tagName = "a" ∧ ¬ (value = "") from ⟨ht, fun hh => hv hh⟩)]
  rw [← hkey]
  exact anchorFound_anchorSet_self rc _ true value e

/-- C7, amended: in any tree, an element with id equal to the fragment makes the lookup succeed provided the fragment is truthy and is not itself clobber-stripped (acceptance on and fragment starting with the marker); an `a` element whose name equals the fragment behaves identically; an id equal to the marker plus the fragment makes the lookup succeed when acceptance is on; and with acceptance off such an element alone leaves the bare fragment unresolved, the value being recorded under its raw un-stripped name. -/
theorem anchor_lookup (rc : Bool) (f : String) (pre post : List HElement) (e : HElement) :
    (f ≠ "" → (strStartsWith f clobberMark && rc) = false → e.idAttr = some f →
      anchorFound (getAnchors (pre ++ e :: post) rc) f = true) ∧
    (f ≠ "" → (strStartsWith f clobberMark && rc) = false → e.tagName = "a" →
      e.nameAttr = some f →
      anchorFound (getAnchors (pre ++ e :: post) rc) f = true) ∧
    (rc = true → e.idAttr = some (clobberMark ++ f) →
      anchorFound (getAnchors (pre ++ e :: post) rc) f = true) ∧
    (∀ e2 : HElement, e2.idAttr = some (clobberMark ++ f) → e2.nameAttr = none →
      anchorFound (getAnchors [e2] false) f = false) := by
  refine ⟨?_, ?_, ?_, ?_⟩
  · intro hf hkey hid
    unfold getAnchors
    rw [List.foldl_append, List.foldl_cons]
    exact anchorFound_foldl rc post _ f
      (anchorFound_anchorVisit_id rc _ e f f hf (anchorKeyOf_raw rc f hkey) hid)
  · intro hf hkey ht hn
    unfold getAnchors
    rw [List.foldl_append, List.foldl_cons]
    exact anchorFound_foldl rc post _ f
      (anchorFound_anchorVisit_name rc _ e f f hf (anchorKeyOf_raw rc f hkey) ht hn)
  · intro hrc hid
    subst hrc
    unfold getAnchors
    rw [List.foldl_append, List.foldl_cons]
    exact anchorFound_foldl true post _ f
      (anchorFound_anchorVisit_id true _ e (clobberMark ++ f) f (clobber_append_ne_empty f)
        (anchorKeyOf_clobber f) hid)
  · intro e2 hid hn
    unfold getAnchors anchorVisit
    rw [List.foldl_cons, List.foldl_nil]
    simp only [hid, hn, if_neg (clobber_append_ne_empty f)]
    unfold anchorSet
    rw [anchorKeyOf_raw false (clobberMark ++ f) (by simp)]
    unfold anchorFound
    rw [anchorGet_anchorPut_other [] (clobberMark ++ f) f _ (fun h => clobber_append_ne f h.symm)]
    rfl

/-- C7, counterexample: with acceptance on, an element whose id is literally user-content-x does not make the lookup for the fragment user-content-x succeed (it is recorded under the stripped name x), and an element with an empty id does not make the lookup for the empty fragment succeed — both contradicting the unconditional claim that an element with id equal to f makes the lookup for f succeed. -/
theorem anchor_lookup_counterexample :
    anchorFound (getAnchors [⟨"h1", some "user-content-x", none, []⟩] true) "user-content-x" = false ∧
    anchorFound (getAnchors [⟨"h1", some "user-content-x", none, []⟩] true) "x" = true ∧
    anchorFound (getAnchors [⟨"h1", some "", none, []⟩] true) "" = false := by
  refine ⟨by decide, by decide, by decide⟩

/-- C7, witness: the amended theorem applied to a single-element tree
with id hi and fragment hi, acceptance on. -/
theorem anchor_lookup_witness :
    ("hi" ≠ "" ∧ (strStartsWith "hi" clobberMark && true) = false) ∧
    anchorFound (getAnchors ([] ++ (⟨"h1", some "hi", none, []⟩ : HElement) :: []) true)
      "hi" = true :=
  ⟨⟨by decide, by decide⟩,
    (anchor_lookup true "hi" [] [] ⟨"h1", some "hi", none, []⟩).1 (by decide) (by decide) rfl⟩

/-- C3: at the not-ok decision point (a fetched response that is
neither 2xx nor followed as a redirect), the engine retries the same
URL if and only if the retry counter at the decision — which step 4
has just reset to zero on the successful fetch — is below maxRetries
and the status is below 400 or at least 500. A 4xx status is never
retried and immediately yields the fatal dead diagnostic carrying
status code, status text and effective response URL; statuses below
200 and 3xx responses without a usable location header satisfy the
retry condition and are retried whenever the budget allows. -/
theorem retry_decision (cfg : Config) (fuel : Nat) (st : RState) (rest : List FetchOutcome)
    (url : Url) (r : Response)
    (hred : st.redirects ≤ cfg.maxRedirects)
    (hnofollow : locationToFollow r = none)
    (hnotok : r.ok = false) :
    ((0 < cfg.maxRetries ∧ (r.status < 400 ∨ 500 ≤ r.status)) →
      deadOrAliveInternal cfg (fuel + 1) st (.success r :: rest) url =
        (deadOrAliveInternal cfg fuel { st with retries := 1 } rest url).withTrace
          [.fetchReq url.href, .sleep (cfg.sleep 1)]) ∧
    (¬ (0 < cfg.maxRetries ∧ (r.status < 400 ∨ 500 ≤ r.status)) →
      deadOrAliveInternal cfg (fuel + 1) st (.success r :: rest) url =
        { outcome := .fatal (deadMessage r.status r.statusText r.url),
          state := { st with retries := 0 }, script := rest,
          trace := [.fetchReq url.href] }) ∧
    (400 ≤ r.status → r.status < 500 →
      deadOrAliveInternal cfg (fuel + 1) st (.success r :: rest) url =
        { outcome := .fatal (deadMessage r.status r.statusText r.url),
          state := { st with retries := 0 }, script := rest,
          trace := [.fetchReq url.href] }) ∧
    (deadMessage r.status r.statusText r.url).reason =
      "Unexpected not ok response `" ++ toString r.status ++ "` (`" ++ r.statusText ++
        "`) on `" ++ r.url.href ++ "`" ∧
    (deadMessage r.status r.statusText r.url).ruleId = some "dead" ∧
    (deadMessage r.status r.statusText r.url).fatal = some true := by
  have hng : ¬ (st.redirects > cfg.maxRedirects) := by omega
  refine ⟨?_, ?_, ?_, rfl, rfl, rfl⟩
  · intro hc
    conv_lhs => unfold deadOrAliveInternal run
    simp only [if_neg hng, hnofollow, hnotok, Bool.false_eq_true, not_false_iff,
      if_true, if_pos hc]
    simp [deadOrAliveInternal]
  · intro hc
    conv_lhs => unfold deadOrAliveInternal run
    simp only [if_neg hng, hnofollow, hnotok, Bool.false_eq_true, not_false_iff,
      if_true, if_neg hc]
  · intro h4 h5
    have hc : ¬ (0 < cfg.maxRetries ∧ (r.status < 400 ∨ 500 ≤ r.status)) := by omega
    conv_lhs => unfold deadOrAliveInternal run
    simp only [if_neg hng, hnofollow, hnotok, Bool.false_eq_true, not_false_iff,
      if_true, if_neg hc]

/-- C3, witness: the theorem applied to a 404 response under the
default configuration: no retry, immediate fatal dead diagnostic. -/
theorem retry_decision_witness :
    (initialState.redirects ≤ defaultConfig.maxRedirects ∧
      locationToFollow (plainResponse 404 "Not Found" exHome) = none ∧
      (plainResponse 404 "Not Found" exHome).ok = false ∧
      ¬ (0 < defaultConfig.maxRetries ∧
        ((plainResponse 404 "Not Found" exHome).status < 400 ∨
          500 ≤ (plainResponse 404 "Not Found" exHome).status))) ∧
    deadOrAliveInternal defaultConfig 1 initialState
        [.success (plainResponse 404 "Not Found" exHome)] exHome =
      { outcome := .fatal (deadMessage 404 "Not Found" exHome),
        state := { initialState with retries := 0 }, script := [],
        trace := [.fetchReq exHome.href] } :=
  ⟨⟨by decide, by decide, by decide, by decide⟩,
   (retry_decision defaultConfig 0 initialState [] exHome (plainResponse 404 "Not Found" exHome)
      (by decide) (by decide) (by decide)).2.1 (by decide)⟩

/-- Helper: one followed 301 redirect hop — budget permitting, the engine resets the retry counter, updates permanence, advances the redirect counter and recurses on the resolved target. -/
theorem run_redirect_step (cfg : Config) (fuel : Nat) (st : RState) (sc : List FetchOutcome)
    (url : Url) (l : String) (u : Url)
    (hred : st.redirects ≤ cfg.maxRedirects) (hl : ¬ (l = ""))
    (hr : resolveUrl l url = some u) (h0 : url.hash = "") :
    run cfg (fuel + 1) (.internal url) st (.success (redirectResponse 301 l) :: sc) =
      (run cfg fuel (.internal u)
        { st with
          retries := 0
          redirects := st.redirects + 1
          permanent := if st.permanent = none then some true else st.permanent } sc).withTrace
        [.fetchReq url.href, .httpRedirect 301] := by
  have hng : ¬ (st.redirects > cfg.maxRedirects) := by omega
  conv_lhs => unfold run
  simp only [if_neg hng]
  have hloc : locationToFollow (redirectResponse 301 l) = some l := by
    simp [locationToFollow, redirectResponse, hl]
  simp only [hloc, hr]
  by_cases hp : st.permanent = none <;>
    simp [permUpdateHttp, hp, h0, pushMessage, redirectResponse]

/-- Helper: the chain state composes over one more hop. -/
theorem chainState_cons (st : RState) (l : String) (ls : List String) :
    chainState { st with
        retries := 0
        redirects := st.redirects + 1
        permanent := if st.permanent = none then some true else st.permanent } ls =
      chainState st (l :: ls) := by
  unfold chainState
  cases hls : ls.isEmpty <;> cases hp : st.permanent <;>
    simp [hls, hp] <;> omega

/-- Helper: following a chain of 301 redirects (all hash-free, all within the ceiling) reaches the last target with the redirect counter advanced by the chain length. -/
theorem run_redirect_chain (cfg : Config) (locs : List String) :
    ∀ (us : List Url) (url : Url) (st : RState) (sc : List FetchOutcome) (fuel : Nat),
    chainTargets url locs = some us →
    url.hash = "" → (∀ u ∈ us, u.hash = "") → (∀ l ∈ locs, ¬ (l = "")) →
    st.redirects + locs.length ≤ cfg.maxRedirects + 1 →
    ((run cfg (fuel + locs.length) (.internal url) st (redirectScript locs ++ sc)).outcome =
      (run cfg fuel (.internal (us.getLastD url)) (chainState st locs) sc).outcome) ∧
    ((run cfg (fuel + locs.length) (.internal url) st (redirectScript locs ++ sc)).state =
      (run cfg fuel (.internal (us.getLastD url)) (chainState st locs) sc).state) ∧
    ((run cfg (fuel + locs.length) (.internal url) st (redirectScript locs ++ sc)).script =
      (run cfg fuel (.internal (us.getLastD url)) (chainState st locs) sc).script) := by
  induction locs with
  | nil =>
    intro us url st sc fuel hchain h0 hus hls hbound
    have hus0 : us = [] := by simpa [chainTargets] using hchain.symm
    subst hus0
    exact ⟨rfl, rfl, rfl⟩
  | cons l ls ih =>
    intro us url st sc fuel hchain h0 hus hls hbound
    simp only [chainTargets] at hchain
    cases hr : resolveUrl l url with
    | none => rw [hr] at hchain; simp at hchain
    | some u =>
      simp only [hr] at hchain
      cases hch : chainTargets u ls with
      | none => rw [hch] at hchain; simp at hchain
      | some us2 =>
        rw [hch] at hchain
        simp at hchain
        subst hchain
        have hfe : fuel + (l :: ls).length = (fuel + ls.length) + 1 := by
          simp only [List.length_cons]
          omega
        rw [hfe]
        have hscript : redirectScript (l :: ls) ++ sc =
            .success (redirectResponse 301 l) :: (redirectScript ls ++ sc) := by
          simp [redirectScript]
        rw [hscript]
        rw [run_redirect_step cfg (fuel + ls.length) st (redirectScript ls ++ sc) url l u
          (by omega) (hls l (by simp)) hr h0]
        have ihx := ih us2 u
          { st with
            retries := 0
            redirects := st.redirects + 1
            permanent := if st.permanent = none then some true else st.permanent }
          sc fuel hch (hus u (by simp)) (fun v hv => hus v (by simp [hv]))
          (fun v hv => hls v (by simp [hv])) (by simp; omega)
        rw [chainState_cons st l ls] at ihx
        have hlast : (u :: us2).getLastD url = us2.getLastD u := by
          cases us2 <;> simp [List.getLastD]
        rw [hlast]
        exact ⟨by simp [RunResult.withTrace, ihx.1],
               by simp [RunResult.withTrace, ihx.2.1],
               by simp [RunResult.withTrace, ihx.2.2]⟩

/-- Helper: the last URL of a hash-free chain is hash-free. -/
theorem getLastD_hash (us : List Url) (u0 : Url) (h0 : u0.hash = "")
    (hus : ∀ u ∈ us, u.hash = "") : (us.getLastD u0).hash = "" := by
  induction us generalizing u0 with
  | nil => exact h0
  | cons u us ih =>
    have hc : (u :: us).getLastD u0 = us.getLastD u := by cases us <;> simp [List.getLastD]
    rw [hc]
    exact ih u (hus u (by simp)) (fun v hv => hus v (by simp [hv]))

/-- Helper: entering a hop with the redirect counter above the ceiling throws the fatal max-redirect diagnostic naming the hop URL, before any fetch. -/
theorem run_maxed (cfg : Config) (fuel : Nat) (st : RState) (sc : List FetchOutcome)
    (url : Url) (h : st.redirects > cfg.maxRedirects) :
    run cfg (fuel + 1) (.internal url) st sc =
      { outcome := .fatal (maxRedirectMessage url), state := st, script := sc, trace := [] } := by
  conv_lhs => unfold run
  simp [h]

/-- Helper: a terminal 200 text/plain response on a hash-free URL yields the effective response URL with no warnings. -/
theorem run_final_plain (cfg : Config) (st : RState) (url ru : Url) (stext : String)
    (hred : st.redirects ≤ cfg.maxRedirects) (h0 : url.hash = "") :
    run cfg 1 (.internal url) st [.success (plainResponse 200 stext ru)] =
      { outcome := .alive ru, state := { st with retries := 0 }, script := [],
        trace := [.fetchReq url.href] } := by
  have hng : ¬ (st.redirects > cfg.maxRedirects) := by omega
  show run cfg (0 + 1) (.internal url) st [.success (plainResponse 200 stext ru)] = _
  conv_lhs => unfold run
  simp +decide [if_neg hng, locationToFollow, plainResponse, Response.ok, contentTypeOf,
    mediaTypeOf, handleUnknownModel, h0]

/-- Helper: packaging an alive internal outcome into the public result. -/
theorem deadOrAlive_url_alive (cfg : Config) (fuel : Nat) (script : List FetchOutcome)
    (u fu : Url) (st : RState)
    (ho : (run cfg fuel (.internal u) initialState script).outcome = .alive fu)
    (hs : (run cfg fuel (.internal u) initialState script).state = st) :
    (deadOrAlive cfg fuel script (.url u)).1 =
      some { status := "alive", url := some fu.href, messages := st.messages,
             permanent := st.permanent, urls := st.urls } := by
  simp [deadOrAlive, ho, hs]

/-- Helper: packaging a thrown diagnostic into the public dead result. -/
theorem deadOrAlive_url_fatal (cfg : Config) (fuel : Nat) (script : List FetchOutcome)
    (u : Url) (m : Msg) (st : RState)
    (ho : (run cfg fuel (.internal u) initialState script).outcome = .fatal m)
    (hs : (run cfg fuel (.internal u) initialState script).state = st) :
    (deadOrAlive cfg fuel script (.url u)).1 =
      some { status := "dead", url := none, messages := m :: st.messages,
             permanent := st.permanent, urls := st.urls } := by
  simp [deadOrAlive, ho, hs]

/-- C1, amended: with maxRedirects = N, a chain of exactly N redirects followed by a 2xx succeeds with the final URL; a chain of N + 1 redirects fails with the fatal max-redirect diagnostic whose message names the target of the (N + 1)-th redirect — the URL of the (N + 2)-th hop, which is never fetched. -/
theorem maxRedirects_boundary (cfg : Config) (url0 ru : Url) (locs : List String)
    (us : List Url) (stext : String)
    (hchain : chainTargets url0 locs = some us)
    (h0 : url0.hash = "") (hus : ∀ u ∈ us, u.hash = "")
    (hls : ∀ l ∈ locs, ¬ (l = "")) :
    (locs.length = cfg.maxRedirects →
      (deadOrAlive cfg (locs.length + 1)
          (redirectScript locs ++ [.success (plainResponse 200 stext ru)]) (.url url0)).1 =
        some { status := "alive", url := some ru.href, messages := [],
               permanent := if locs.isEmpty then none else some true, urls := none }) ∧
    (locs.length = cfg.maxRedirects + 1 →
      (deadOrAlive cfg (locs.length + 1) (redirectScript locs ++ []) (.url url0)).1 =
        some { status := "dead", url := none,
               messages := [maxRedirectMessage (us.getLastD url0)],
               permanent := some true, urls := none } ∧
      (maxRedirectMessage (us.getLastD url0)).reason =
        "Unexpected redirect to `" ++ (us.getLastD url0).href ++ "`, too many redirects") := by
  constructor
  · intro hN
    have hrc := run_redirect_chain cfg locs us url0 initialState
      [.success (plainResponse 200 stext ru)] 1 hchain h0 hus hls
      (by simp [initialState]; omega)
    have hfin := run_final_plain cfg (chainState initialState locs) (us.getLastD url0) ru stext
      (by simp [chainState, initialState]; omega) (getLastD_hash us url0 h0 hus)
    have hcomm : locs.length + 1 = 1 + locs.length := Nat.add_comm _ _
    rw [hcomm]
    have ho : (run cfg (1 + locs.length) (.internal url0) initialState
        (redirectScript locs ++ [.success (plainResponse 200 stext ru)])).outcome = .alive ru := by
      rw [hrc.1, hfin]
    have hs : (run cfg (1 + locs.length) (.internal url0) initialState
        (redirectScript locs ++ [.success (plainResponse 200 stext ru)])).state =
        { chainState initialState locs with retries := 0 } := by
      rw [hrc.2.1, hfin]
    rw [deadOrAlive_url_alive cfg (1 + locs.length) _ url0 ru _ ho hs]
    simp [chainState, initialState]
  · intro hN
    have hrc := run_redirect_chain cfg locs us url0 initialState [] 1 hchain h0 hus hls
      (by simp [initialState]; omega)
    have hmax := run_maxed cfg 0 (chainState initialState locs) []
      (us.getLastD url0) (by simp [chainState, initialState]; omega)
    have hcomm : locs.length + 1 = 1 + locs.length := Nat.add_comm _ _
    rw [hcomm]
    have ho : (run cfg (1 + locs.length) (.internal url0) initialState
        (redirectScript locs ++ [])).outcome = .fatal (maxRedirectMessage (us.getLastD url0)) := by
      rw [hrc.1]
      show (run cfg (0 + 1) _ _ _).outcome = _
      rw [hmax]
    have hs : (run cfg (1 + locs.length) (.internal url0) initialState
        (redirectScript locs ++ [])).state = chainState initialState locs := by
      rw [hrc.2.1]
      show (run cfg (0 + 1) _ _ _).state = _
      rw [hmax]
    rw [deadOrAlive_url_fatal cfg (1 + locs.length) _ url0 _ _ ho hs]
    have hne : locs.isEmpty = false := by
      cases locs with
      | nil => simp at hN
      | cons a b => simp
    refine ⟨?_, rfl⟩
    simp [chainState, initialState, hne]

/-- C1, counterexample: with maxRedirects = 0, a chain of exactly 0 + 1 redirects followed by a 2xx — which the claim asserts to be alive — is dead with the fatal max-redirect diagnostic. -/
theorem maxRedirects_claim_counterexample :
    (deadOrAlive { defaultConfig with maxRedirects := 0 } 2
        [.success (redirectResponse 301 "https://example.com/1"),
         .success (plainResponse 200 "OK" exStep1)] (.url exHome)).1 =
      some { status := "dead", url := none,
             messages := [maxRedirectMessage exStep1],
             permanent := some true, urls := none } := by decide

/-- C1, witness: the amended theorem applied with maxRedirects = 1 and a one-redirect chain followed by a 200, yielding alive. -/
theorem maxRedirects_boundary_witness :
    chainTargets exHome ["https://example.com/1"] = some [exStep1] ∧
    (deadOrAlive { defaultConfig with maxRedirects := 1 } 2
        (redirectScript ["https://example.com/1"] ++ [.success (plainResponse 200 "OK" exStep1)])
        (.url exHome)).1 =
      some { status := "alive", url := some exStep1.href, messages := [],
             permanent := some true, urls := none } :=
  ⟨by decide,
    (maxRedirects_boundary { defaultConfig with maxRedirects := 1 } exHome exStep1
      ["https://example.com/1"] [exStep1] "OK" (by decide) rfl (by decide) (by decide)).1 rfl⟩

/-- Helper: establishing the run invariant for a terminal leaf of the engine. -/
theorem RunInv_leaf (outcome : ROutcome) (st st' : RState) (sc : List FetchOutcome)
    (es : List Effect) (pushes : List Msg)
    (hmsg : st'.messages = st.messages ++ pushes) (hnf : ∀ m ∈ pushes, m.fatal = none)
    (hperm : st'.permanent = List.foldl permStep st.permanent (permEvents es))
    (hfatal : ∀ m, outcome = ROutcome.fatal m → m.fatal = some true ∨ m.ruleId = none) :
    RunInv { outcome := outcome, state := st', script := sc, trace := es } st :=
  ⟨⟨pushes, hmsg, hnf⟩, hfatal, hperm⟩

/-- Helper: establishing the run invariant for a recursive leaf, composing the pushed warnings and the prepended effects with the invariant of the recursive call. -/
theorem RunInv_withTrace (r : RunResult) (st st' : RState) (es : List Effect)
    (pushes : List Msg)
    (hmsg : st'.messages = st.messages ++ pushes) (hnf : ∀ m ∈ pushes, m.fatal = none)
    (hperm : st'.permanent = List.foldl permStep st.permanent (permEvents es))
    (h : RunInv r st') : RunInv (r.withTrace es) st := by
  obtain ⟨⟨ms, hm, hf⟩, hfatal, hp⟩ := h
  refine ⟨⟨pushes ++ ms, ?_, ?_⟩, ?_, ?_⟩
  · simp only [RunResult.withTrace]
    rw [hm, hmsg, List.append_assoc]
  · intro m hm'
    rcases List.mem_append.mp hm' with h | h
    exacts [hnf m h, hf m h]
  · intro m hm'
    exact hfatal m hm'
  · simp only [RunResult.withTrace, permEvents, List.filterMap_append, List.foldl_append]
    rw [hp, hperm]
    simp [permEvents]

/-- Helper: the permanence bookkeeping on an HTTP redirect is one permStep on the event of its status. -/
theorem permUpdateHttp_permanent (s : Nat) (st : RState) :
    (permUpdateHttp s st).permanent = permStep st.permanent (decide (s = 301 ∨ s = 308)) := by
  by_cases h : s = 301 ∨ s = 308
  · by_cases hp : st.permanent = none <;> simp [permUpdateHttp, permStep, h, hp]
  · simp [permUpdateHttp, permStep, h]

/-- Helper: any diagnostic thrown by the declarative-refresh parser is fatal. -/
theorem sdr_error_fatal (input : String) (base : Url) (m : Msg)
    (h : sharedDeclarativeRefresh input base = Except.error m) : m.fatal = some true := by
  unfold sharedDeclarativeRefresh at h
  cases he : sdrExtract input.toList with
  | none => rw [he] at h; simp at h
  | some urlChars =>
    rw [he] at h
    simp only [] at h
    cases hr : resolveUrl (String.mk urlChars) base with
    | none =>
      simp only [hr] at h
      simp at h
      rw [← h]
      rfl
    | some u => simp only [hr] at h; simp at h

/-- Helper: the permanence bookkeeping does not touch the message list. -/
theorem permUpdateHttp_messages (s : Nat) (st : RState) :
    (permUpdateHttp s st).messages = st.messages := by
  unfold permUpdateHttp
  split_ifs <;> rfl

/-- Helper: any diagnostic thrown by the meta refresh computation is fatal. -/
theorem metaRedirectE_error_fatal (b : Bool) (doc : HtmlDoc) (rurl : Url) (m : Msg)
    (h : metaRedirectE b doc rurl = Except.error m) : m.fatal = some true := by
  unfold metaRedirectE at h
  by_cases hf : b
  · rw [if_pos hf] at h
    cases hm : doc.metaRefresh with
    | none => rw [hm] at h; simp at h
    | some content =>
      rw [hm] at h
      simp only [] at h
      by_cases hc : content = ""
      · rw [if_pos hc] at h; simp at h
      · rw [if_neg hc] at h; exact sdr_error_fatal _ _ _ h
  · rw [if_neg hf] at h; simp at h

/-- Helper: the run invariant holds of every engine run — messages only grow by non-fatal warnings, thrown diagnostics are fatal (or the bare URL parse error), and the permanence tri-state is the fold of permStep over the redirect events of the trace. -/
theorem run_inv (cfg : Config) :
    ∀ (fuel : Nat) (mode : Mode) (st : RState) (sc : List FetchOutcome),
    RunInv (run cfg fuel mode st sc) st := by
  intro fuel
  induction fuel with
  | zero =>
    intro mode st sc
    exact RunInv_leaf ROutcome.stuck st st sc [] [] (by simp) (by simp)
      (by simp [permEvents]) (by simp)
  | succ fuel ih =>
    intro mode st sc
    cases mode with
    | internal url =>
      show RunInv (run cfg (fuel + 1) (Mode.internal url) st sc) st
      unfold run
      by_cases h1 : st.redirects > cfg.maxRedirects
      · simp only [if_pos h1]
        exact RunInv_leaf _ st st sc [] [] (by simp) (by simp) (by simp [permEvents])
          (by intro m hm; cases hm; exact Or.inl rfl)
      · simp only [if_neg h1]
        cases sc with
        | nil =>
          exact RunInv_leaf _ st st [] [] [] (by simp) (by simp) (by simp [permEvents])
            (by simp)
        | cons o rest =>
          cases o with
          | failure =>
            by_cases h2 : st.retries < cfg.maxRetries
            · simp only [if_pos h2]
              exact RunInv_withTrace _ st _ _ [] (by simp) (by simp)
                (by simp [permEvents, permEvent]) (ih _ _ _)
            · simp only [if_neg h2]
              exact RunInv_leaf _ st st rest _ [] (by simp) (by simp)
                (by simp [permEvents, permEvent])
                (by intro m hm; cases hm; exact Or.inl rfl)
          | success r =>
            cases hloc : locationToFollow r with
            | some l =>
              simp only [hloc]
              cases hres : resolveUrl l url with
              | none =>
                simp only [hres]
                exact RunInv_leaf _ st _ rest _ [] (by simp) (by simp)
                  (by simp [permEvents, permEvent])
                  (by intro m hm; cases hm; exact Or.inr rfl)
              | some redirect =>
                simp only [hres]
                by_cases hh : url.hash = ""
                · refine RunInv_withTrace _ st _ _ [] ?_ (by simp) ?_ (ih _ _ _)
                  · simp [hh, pushMessage, permUpdateHttp_messages]
                  · simp [hh, pushMessage, permUpdateHttp_permanent, permEvents, permEvent,
                      permStep]
                · refine RunInv_withTrace _ st _ _
                    [lostHashRedirectMessage url redirect] ?_ ?_ ?_ (ih _ _ _)
                  · simp [hh, pushMessage, permUpdateHttp_messages]
                  · simp [lostHashRedirectMessage]
                  · simp [hh, pushMessage, permUpdateHttp_permanent, permEvents, permEvent,
                      permStep]
            | none =>
              simp only [hloc]
              by_cases hok : r.ok = true
              · rw [if_neg (show ¬ ¬ (r.ok = true) by simp [hok])]
                cases hct : contentTypeOf r with
                | some ct =>
                  simp only [hct]
                  by_cases hmt : mediaTypeOf ct = "text/html"
                  · simp only [if_pos hmt]
                    exact RunInv_withTrace _ st _ _ [] (by simp) (by simp)
                      (by simp [permEvents, permEvent]) (ih _ _ _)
                  · simp only [if_neg hmt]
                    by_cases hh : cfg.checkAnchor ∧ ¬ (url.hash = "")
                    · exact RunInv_leaf _ st _ rest _ [lostHashNonHtmlMessage url (some ct)]
                        (by simp [handleUnknownModel, hh, pushMessage])
                        (by simp [lostHashNonHtmlMessage])
                        (by simp [handleUnknownModel, hh, pushMessage, permEvents, permEvent])
                        (by simp)
                    · exact RunInv_leaf _ st _ rest _ []
                        (by simp [handleUnknownModel, hh])
                        (by simp)
                        (by simp [handleUnknownModel, hh, permEvents, permEvent])
                        (by simp)
                | none =>
                  simp only [hct]
                  by_cases hh : cfg.checkAnchor ∧ ¬ (url.hash = "")
                  · exact RunInv_leaf _ st _ rest _ [lostHashNonHtmlMessage url none]
                      (by simp [handleUnknownModel, hh, pushMessage])
                      (by simp [lostHashNonHtmlMessage])
                      (by simp [handleUnknownModel, hh, pushMessage, permEvents, permEvent])
                      (by simp)
                  · exact RunInv_leaf _ st _ rest _ []
                      (by simp [handleUnknownModel, hh])
                      (by simp)
                      (by simp [handleUnknownModel, hh, permEvents, permEvent])
                      (by simp)
              · have hok2 : r.ok = false := by simpa using hok
                rw [if_pos (by simp [hok2])]
                by_cases h3 : (0 : Nat) < cfg.maxRetries ∧ (r.status < 400 ∨ 500 ≤ r.status)
                · rw [if_pos h3]
                  exact RunInv_withTrace _ st _ _ [] (by simp) (by simp)
                    (by simp [permEvents, permEvent]) (ih _ _ _)
                · rw [if_neg h3]
                  exact RunInv_leaf _ st _ rest _ [] (by simp) (by simp)
                    (by simp [permEvents, permEvent])
                    (by intro m hm; cases hm; exact Or.inl rfl)
    | html url r =>
      show RunInv (run cfg (fuel + 1) (Mode.html url r) st sc) st
      unfold run
      by_cases hfast :
          ¬ ((cfg.checkAnchor ∧ ¬ (url.hash = "")) ∨ cfg.findUrls ∨ cfg.followMetaHttpEquiv)
      · rw [if_pos hfast]
        exact RunInv_leaf _ st st sc [] [] (by simp) (by simp) (by simp [permEvents]) (by simp)
      · rw [if_neg hfast]
        split
        · exact RunInv_leaf _ st st sc _ [] (by simp) (by simp)
            (by simp [permEvents, permEvent]) (by simp)
        · rename_i doc hb
          split
          next m hE =>
            exact RunInv_leaf _ st st sc _ [] (by simp) (by simp)
              (by simp [permEvents, permEvent])
              (by intro m2 hm2; cases hm2; exact Or.inl (metaRedirectE_error_fatal _ _ _ _ hE))
          next redirect hE =>
            by_cases hh : cfg.checkAnchor ∧ ¬ (url.hash = "")
            · refine RunInv_withTrace _ st _ _ [lostHashMetaMessage url redirect] ?_ ?_ ?_
                (ih _ _ _)
              · simp [hh, pushMessage]
              · simp [lostHashMetaMessage]
              · simp [hh, pushMessage, permEvents, permEvent, permStep]
            · refine RunInv_withTrace _ st _ _ [] ?_ (by simp) ?_ (ih _ _ _)
              · simp [hh, pushMessage]
              · simp [hh, permEvents, permEvent, permStep]
          next hE =>
            by_cases hh : cfg.checkAnchor ∧ ¬ (url.hash = "")
            · rw [if_pos hh]
              by_cases hf : cfg.findUrls = true
              · simp only [if_pos hf]
                split
                · exact RunInv_leaf _ st _ sc _ [] (by simp) (by simp)
                    (by simp [permEvents, permEvent]) (by simp)
                · split
                  · exact RunInv_leaf _ st _ sc _ [] (by simp) (by simp)
                      (by simp [permEvents, permEvent]) (by simp)
                  · exact RunInv_leaf _ st _ sc _ [] (by simp) (by simp)
                      (by simp [permEvents, permEvent])
                      (by intro m hm; cases hm; exact Or.inl rfl)
              · simp only [if_neg hf]
                split
                · exact RunInv_leaf _ st st sc _ [] (by simp) (by simp)
                    (by simp [permEvents, permEvent]) (by simp)
                · split
                  · exact RunInv_leaf _ st st sc _ [] (by simp) (by simp)
                      (by simp [permEvents, permEvent]) (by simp)
                  · exact RunInv_leaf _ st st sc _ [] (by simp) (by simp)
                      (by simp [permEvents, permEvent])
                      (by intro m hm; cases hm; exact Or.inl rfl)
            · rw [if_neg hh]
              by_cases hf : cfg.findUrls = true
              · simp only [if_pos hf]
                exact RunInv_leaf _ st _ sc _ [] (by simp) (by simp)
                  (by simp [permEvents, permEvent]) (by simp)
              · simp only [if_neg hf]
                exact RunInv_leaf _ st st sc _ [] (by simp) (by simp)
                  (by simp [permEvents, permEvent]) (by simp)

/-- Helper: once the permanence fold reaches false it stays false. -/
theorem permFold_false (evs : List Bool) :
    List.foldl permStep (some false) evs = some false := by
  induction evs with
  | nil => rfl
  | cons e evs ih => cases e <;> simpa [permStep] using ih

/-- Helper: the permanence fold from true stays true exactly while every event is permanent. -/
theorem permFold_true (evs : List Bool) :
    List.foldl permStep (some true) evs =
      if evs.all (fun e => e = true) then some true else some false := by
  induction evs with
  | nil => rfl
  | cons e evs ih =>
    cases e
    · simp [permStep, permFold_false, List.all_cons]
    · simpa [permStep, List.all_cons] using ih

/-- Helper: closed form of the permanence fold from the unset state. -/
theorem permFold_none (evs : List Bool) :
    List.foldl permStep none evs =
      if evs.isEmpty then none
      else if evs.all (fun e => e = true) then some true else some false := by
  cases evs with
  | nil => rfl
  | cons e evs =>
    cases e
    · simp [permStep, permFold_false, List.all_cons]
    · simp [permStep, permFold_true, List.all_cons]

/-- C4: for every resolution started from the fresh state, the final permanent field is unset exactly when no redirect event occurred; it is true exactly when at least one redirect occurred and every redirect event was a permanent HTTP redirect (status 301 or 308, never a meta refresh); and it is false exactly when a redirect occurred and some event was not a permanent HTTP redirect — so any non-permanent or HTML redirect at any position forces false for the rest of the resolution and the field is never set back to true. -/
theorem permanent_characterisation (cfg : Config) (fuel : Nat) (sc : List FetchOutcome)
    (url : Url) :
    ((run cfg fuel (Mode.internal url) initialState sc).state.permanent = none ↔
      permEvents (run cfg fuel (Mode.internal url) initialState sc).trace = []) ∧
    ((run cfg fuel (Mode.internal url) initialState sc).state.permanent = some true ↔
      (permEvents (run cfg fuel (Mode.internal url) initialState sc).trace ≠ [] ∧
        ∀ e ∈ permEvents (run cfg fuel (Mode.internal url) initialState sc).trace, e = true)) ∧
    ((run cfg fuel (Mode.internal url) initialState sc).state.permanent = some false ↔
      (permEvents (run cfg fuel (Mode.internal url) initialState sc).trace ≠ [] ∧
        ¬ ∀ e ∈ permEvents (run cfg fuel (Mode.internal url) initialState sc).trace, e = true)) := by
  have hinv := (run_inv cfg fuel (Mode.internal url) initialState sc).2.2
  rw [show initialState.permanent = none from rfl, permFold_none] at hinv
  rw [hinv]
  by_cases h1 : (permEvents (run cfg fuel (Mode.internal url) initialState sc).trace).isEmpty
  · have h1x : permEvents (run cfg fuel (Mode.internal url) initialState sc).trace = [] :=
      List.isEmpty_iff.mp h1
    simp [h1, h1x]
  · have h1x : ¬ permEvents (run cfg fuel (Mode.internal url) initialState sc).trace = [] := by
      simpa [List.isEmpty_iff] using h1
    by_cases h2 : (permEvents (run cfg fuel (Mode.internal url) initialState sc).trace).all
        (fun e => e = true)
    · have hall : ∀ e ∈ permEvents (run cfg fuel (Mode.internal url) initialState sc).trace,
          e = true := by
        intro e he
        simpa using List.all_eq_true.mp h2 e he
      have hfm : false ∉ permEvents (run cfg fuel (Mode.internal url) initialState sc).trace :=
        fun hf => by simpa using hall false hf
      simp [h1, h2, h1x, hall, hfm]
    · have hnall : ¬ ∀ e ∈ permEvents (run cfg fuel (Mode.internal url) initialState sc).trace,
          e = true := by
        intro hall
        exact h2 (List.all_eq_true.mpr (fun e he => by simpa using hall e he))
      have hfm : false ∈ permEvents (run cfg fuel (Mode.internal url) initialState sc).trace := by
        push_neg at hnall
        obtain ⟨e, he, hne⟩ := hnall
        cases e
        · exact he
        · simp at hne
      simp [h1, h2, h1x, hnall, hfm]

/-- C5: whenever the top-level call returns a result (it never throws; in the model the only non-result is running out of fuel or script), the result is either status alive with a present URL and only non-fatal messages, or status dead with the URL absent and a non-empty message list whose first entry is the diagnostic that terminated resolution (fatal, or the bare URL parse error with no rule identifier) followed by the accumulated non-fatal warnings in insertion order. -/
theorem deadOrAlive_shape (cfg : Config) (fuel : Nat) (script : List FetchOutcome)
    (href : Href) (result : DOAResult) (eff : List Effect)
    (h : deadOrAlive cfg fuel script href = (some result, eff)) :
    (result.status = "alive" ∧ result.url.isSome = true ∧
      ∀ m ∈ result.messages, m.fatal = none) ∨
    (result.status = "dead" ∧ result.url = none ∧
      ∃ m ms, result.messages = m :: ms ∧ (m.fatal = some true ∨ m.ruleId = none) ∧
        ∀ m2 ∈ ms, m2.fatal = none) := by
  unfold deadOrAlive at h
  have main : ∀ (u : Url),
      ((match (run cfg fuel (Mode.internal u) initialState script).outcome with
        | ROutcome.alive finalUrl =>
          (some { status := "alive", url := some finalUrl.href,
                  messages := (run cfg fuel (Mode.internal u) initialState script).state.messages,
                  permanent := (run cfg fuel (Mode.internal u) initialState script).state.permanent,
                  urls := (run cfg fuel (Mode.internal u) initialState script).state.urls },
            (run cfg fuel (Mode.internal u) initialState script).trace)
        | ROutcome.fatal m =>
          (some { status := "dead", url := none,
                  messages := m :: (run cfg fuel (Mode.internal u) initialState script).state.messages,
                  permanent := (run cfg fuel (Mode.internal u) initialState script).state.permanent,
                  urls := (run cfg fuel (Mode.internal u) initialState script).state.urls },
            (run cfg fuel (Mode.internal u) initialState script).trace)
        | ROutcome.stuck => (none, (run cfg fuel (Mode.internal u) initialState script).trace)) =
        ((some result : Option DOAResult), eff)) →
      (result.status = "alive" ∧ result.url.isSome = true ∧
        ∀ m ∈ result.messages, m.fatal = none) ∨
      (result.status = "dead" ∧ result.url = none ∧
        ∃ m ms, result.messages = m :: ms ∧ (m.fatal = some true ∨ m.ruleId = none) ∧
          ∀ m2 ∈ ms, m2.fatal = none) := by
    intro u hu
    obtain ⟨⟨ms, hm, hf⟩, hfatal, -⟩ := run_inv cfg fuel (Mode.internal u) initialState script
    rw [show initialState.messages = [] from rfl, List.nil_append] at hm
    cases ho : (run cfg fuel (Mode.internal u) initialState script).outcome with
    | alive fu =>
      rw [ho] at hu
      simp only [Prod.mk.injEq, Option.some.injEq] at hu
      obtain ⟨h1, -⟩ := hu
      subst h1
      left
      refine ⟨rfl, rfl, ?_⟩
      intro m hmm
      rw [hm] at hmm
      exact hf m hmm
    | fatal m =>
      rw [ho] at hu
      simp only [Prod.mk.injEq, Option.some.injEq] at hu
      obtain ⟨h1, -⟩ := hu
      subst h1
      right
      refine ⟨rfl, rfl, m, (run cfg fuel (Mode.internal u) initialState script).state.messages,
        rfl, hfatal m ho, ?_⟩
      intro m2 hmm
      rw [hm] at hmm
      exact hf m2 hmm
    | stuck =>
      rw [ho] at hu
      simp at hu
  cases href with
  | str s =>
    cases hp : parseAbsoluteUrl s with
    | none =>
      simp only [hp] at h
      simp only [Prod.mk.injEq, Option.some.injEq] at h
      obtain ⟨h1, -⟩ := h
      subst h1
      right
      exact ⟨rfl, rfl, invalidUrlError s, [], rfl, Or.inr rfl, by simp⟩
    | some u =>
      simp only [hp] at h
      exact main u h
  | url u =>
    exact main u h

/-- C5, witness: the theorem applied to a concrete 404 run under the default configuration. -/
theorem deadOrAlive_shape_witness :
    deadOrAlive defaultConfig 1 [.success (plainResponse 404 "Not Found" exHome)] (.url exHome) =
      (some deadResult404, [.fetchReq exHome.href]) ∧
    ((deadResult404.status = "alive" ∧ deadResult404.url.isSome = true ∧
        ∀ m ∈ deadResult404.messages, m.fatal = none) ∨
      (deadResult404.status = "dead" ∧ deadResult404.url = none ∧
        ∃ m ms, deadResult404.messages = m :: ms ∧ (m.fatal = some true ∨ m.ruleId = none) ∧
          ∀ m2 ∈ ms, m2.fatal = none)) :=
  ⟨by decide,
    deadOrAlive_shape defaultConfig 1 [.success (plainResponse 404 "Not Found" exHome)]
      (.url exHome) deadResult404 [.fetchReq exHome.href] (by decide)⟩
